import Mathlib

/-!
Verification of the `Playwright.execute` entry point of the n8n Playwright
node (`src/unnamed/part_000`, `Playwright.execute`, lines 320-412) together
with its credential schema
(`src/nodes/credentials/PlaywrightCredentials.credentials.ts`).

The per-item body of the loop is embedded shallowly.  Every call into an
external collaborator (credential store, `playwright.chromium.connectOverCDP`,
`getBrowserExecutablePath`, `installBrowser`, `playwright[browserType].launch`,
`browser.newContext`, `context.newPage`, `page.goto`, `handleOperation`,
`runCustomScript`, `browser.close`) is modelled as an oracle recorded in an
`ItemWorld`: the outcome the call would have if the code performs it.  The
embedding returns, next to the item's result, the trace of external calls the
code actually performs, in order, so that claims about calls never being made
("`connectOverCDP` is never invoked"), about call ordering ("navigate before
dispatch", "close before emit") and about retry counts ("the installer is
invoked exactly once") are statable.
-/

/-- Browser kinds, from the `browser` node parameter options
(`chromium` / `firefox` / `webkit`) and `BrowserType` of `config.ts`. -/
inductive BrowserType where
  | chromium
  | firefox
  | webkit
deriving DecidableEq, Repr

/-- The `browserOptions` collection parameter: `headless` and `slowMo` are
optional entries of the collection (absent when the user did not add them). -/
structure IBrowserOptions where
  headless : Option Bool
  slowMo : Option Nat
deriving DecidableEq, Repr

/-- The `playwrightCredentials` credential object
(`PlaywrightCredentials.credentials.ts`): `connectionType` (an arbitrary
string as read by `credentials.connectionType as string`), `executablePath`
and `endpointUrl`. -/
structure Credentials where
  connectionType : String
  executablePath : String
  endpointUrl : String
deriving DecidableEq, Repr

/-- Per-item node parameters read by `this.getNodeParameter(_, i)`:
`operation`, `browser`, `browserOptions` and `url`. -/
structure ItemCfg where
  operation : String
  browserType : BrowserType
  browserOptions : IBrowserOptions
  url : String
deriving DecidableEq, Repr

/-- An output item pushed onto `returnData`: either a pass-through data item
produced by `handleOperation` / `runCustomScript` (abstracted by a tag), or
the error record `{ json: { error, browserType, os } }` built in the `catch`
branch under continue-on-fail. -/
inductive NodeItem where
  | data (tag : Nat)
  | errorRecord (message : String) (browserType : BrowserType) (os : String)
deriving DecidableEq, Repr

/-- One external call performed by the per-item body, with the arguments the
code passes. -/
inductive Event where
  | credsCall
  | cdpConnect (endpointUrl : String) (slowMo : Nat)
  | locate (bt : BrowserType)
  | installEv (bt : BrowserType)
  | launchEv (headless : Bool) (slowMo : Nat) (execPath : String)
  | ctxOpen
  | pageOpen
  | gotoUrl (url : String)
  | dispatch (op : String)
  | script
  | close
deriving DecidableEq, Repr

/-- Outcomes of the external calls the per-item body may perform, one oracle
per call site (`getBrowserExecutablePath` can be reached twice, hence
`locate1` / `locate2`).  An `Except.error` models the awaited call rejecting /
throwing with that message. -/
structure ItemWorld where
  getCredentials : Except String Credentials
  connectOverCDP : Except String Unit
  locate1 : Except String String
  install : Except String Unit
  locate2 : Except String String
  launch : Except String Unit
  newContext : Except String Unit
  newPage : Except String Unit
  goPage : Except String Unit
  handleOperation : Except String NodeItem
  runScript : Except String (List NodeItem)
  close : Except String Unit
deriving Repr

/-- The error message thrown for `connect` with a non-Chromium browser
(line 345 of the source). -/
def cdpErrMsg : String :=
  "Connect Over CDP is only supported for Chromium-based browsers. Please select \"Chromium\" as the Browser."

/-- `browserOptions.headless !== false`: headless defaults to true and is
false only when explicitly set to false. -/
def effHeadless (o : IBrowserOptions) : Bool :=
  match o.headless with
  | some false => false
  | _ => true

/-- `browserOptions.slowMo || 0`: the configured slow-motion, defaulting
to 0. -/
def effSlowMo (o : IBrowserOptions) : Nat :=
  match o.slowMo with
  | some n => n
  | none => 0

/-- Lines 354-364: executable-path resolution of the launch branch.
`executablePath = credentials.executablePath`; if falsy (empty), try
`getBrowserExecutablePath`; on failure, `installBrowser` then retry
`getBrowserExecutablePath`, any error propagating. -/
def resolveExec (bt : BrowserType) (credPath : String) (w : ItemWorld) :
    List Event × Except String String :=
  if credPath = "" then
    match w.locate1 with
    | .ok p => ([Event.locate bt], .ok p)
    | .error _ =>
      match w.install with
      | .error e => ([Event.locate bt, Event.installEv bt], .error e)
      | .ok _ =>
        match w.locate2 with
        | .error e =>
          ([Event.locate bt, Event.installEv bt, Event.locate bt], .error e)
        | .ok p =>
          ([Event.locate bt, Event.installEv bt, Event.locate bt], .ok p)
  else ([], .ok credPath)

/-- Lines 341-373: browser acquisition.  `connectionType === 'connect'`
requires Chromium and attaches via `connectOverCDP(endpointUrl, {slowMo})`;
every other connection type launches with
`{headless: browserOptions.headless !== false, slowMo: browserOptions.slowMo || 0,
executablePath}`. -/
def acquire (cfg : ItemCfg) (creds : Credentials) (w : ItemWorld) :
    List Event × Except String Unit :=
  if creds.connectionType = "connect" then
    if cfg.browserType ≠ BrowserType.chromium then
      ([], .error cdpErrMsg)
    else
      match w.connectOverCDP with
      | .error e =>
        ([Event.cdpConnect creds.endpointUrl (effSlowMo cfg.browserOptions)], .error e)
      | .ok _ =>
        ([Event.cdpConnect creds.endpointUrl (effSlowMo cfg.browserOptions)], .ok ())
  else
    match resolveExec cfg.browserType creds.executablePath w with
    | (tr, .error e) => (tr, .error e)
    | (tr, .ok execPath) =>
      match w.launch with
      | .error e =>
        (tr ++ [Event.launchEv (effHeadless cfg.browserOptions)
          (effSlowMo cfg.browserOptions) execPath], .error e)
      | .ok _ =>
        (tr ++ [Event.launchEv (effHeadless cfg.browserOptions)
          (effSlowMo cfg.browserOptions) execPath], .ok ())

/-- Lines 375-394: after the browser handle is acquired —
`browser.newContext()`, `context.newPage()`, then for `runCustomScript` the
script runner (no navigation) and otherwise `page.goto(url)` followed by
`handleOperation`; on the success path `browser.close()` and then the push
onto `returnData` (`...result` spread for the script, a single item
otherwise). -/
def afterAcquire (cfg : ItemCfg) (w : ItemWorld) :
    List Event × Except String (List NodeItem) :=
  match w.newContext with
  | .error e => ([Event.ctxOpen], .error e)
  | .ok _ =>
    match w.newPage with
    | .error e => ([Event.ctxOpen, Event.pageOpen], .error e)
    | .ok _ =>
      if cfg.operation = "runCustomScript" then
        match w.runScript with
        | .error e => ([Event.ctxOpen, Event.pageOpen, Event.script], .error e)
        | .ok result =>
          match w.close with
          | .error e =>
            ([Event.ctxOpen, Event.pageOpen, Event.script, Event.close], .error e)
          | .ok _ =>
            ([Event.ctxOpen, Event.pageOpen, Event.script, Event.close], .ok result)
      else
        match w.goPage with
        | .error e =>
          ([Event.ctxOpen, Event.pageOpen, Event.gotoUrl cfg.url], .error e)
        | .ok _ =>
          match w.handleOperation with
          | .error e =>
            ([Event.ctxOpen, Event.pageOpen, Event.gotoUrl cfg.url,
              Event.dispatch cfg.operation], .error e)
          | .ok result =>
            match w.close with
            | .error e =>
              ([Event.ctxOpen, Event.pageOpen, Event.gotoUrl cfg.url,
                Event.dispatch cfg.operation, Event.close], .error e)
            | .ok _ =>
              ([Event.ctxOpen, Event.pageOpen, Event.gotoUrl cfg.url,
                Event.dispatch cfg.operation, Event.close], .ok [result])

/-- The `try` body of one loop iteration (lines 333-394): fetch credentials,
acquire the browser, open context and page, dispatch or run the script, close
and produce the items to push.  The returned trace lists the external calls
performed, in order; `Except.error` is the exception reaching the `catch`. -/
def processItem (cfg : ItemCfg) (w : ItemWorld) :
    List Event × Except String (List NodeItem) :=
  match w.getCredentials with
  | .error e => ([Event.credsCall], .error e)
  | .ok creds =>
    match acquire cfg creds w with
    | (tr, .error e) => (Event.credsCall :: tr, .error e)
    | (tr, .ok _) =>
      match afterAcquire cfg w with
      | (tr2, r) => (Event.credsCall :: (tr ++ tr2), r)

/-- One input item: its per-item parameters and the oracle of outcomes for
the external calls made while processing it. -/
structure RunItem where
  cfg : ItemCfg
  world : ItemWorld
deriving Repr

/-- Lines 328-411: the item loop.  `cof` is `this.continueOnFail()` and `os`
is `platform()`.  Each item runs `processItem`; on success its items are
appended to `returnData`; on error, under continue-on-fail a single
`{error, browserType, os}` record is appended and the loop continues,
otherwise the error is rethrown (modelled as the whole run returning
`Except.error`).  The first component collects the trace of each attempted
item, in order. -/
def execute (cof : Bool) (os : String) :
    List RunItem → List (List Event) × Except String (List NodeItem)
  | [] => ([], .ok [])
  | it :: rest =>
    match processItem it.cfg it.world with
    | (tr, .ok out) =>
      match execute cof os rest with
      | (trs, .ok outs) => (tr :: trs, .ok (out ++ outs))
      | (trs, .error e) => (tr :: trs, .error e)
    | (tr, .error e) =>
      if cof then
        match execute cof os rest with
        | (trs, .ok outs) =>
          (tr :: trs, .ok (NodeItem.errorRecord e it.cfg.browserType os :: outs))
        | (trs, .error e2) => (tr :: trs, .error e2)
      else
        ([tr], .error e)

/-! ## Trace classification helpers -/

/-- Events produced while acquiring the browser (connection attempt,
executable-path resolution, install, launch). -/
def isAcquireEv : Event → Bool
  | .cdpConnect _ _ => true
  | .locate _ => true
  | .installEv _ => true
  | .launchEv _ _ _ => true
  | _ => false

/-- Events that are an actual browser acquisition call
(`connectOverCDP` or `launch`). -/
def isBrowserAcquire : Event → Bool
  | .cdpConnect _ _ => true
  | .launchEv _ _ _ => true
  | _ => false

/-- A `getBrowserExecutablePath` call. -/
def isLocate : Event → Bool
  | .locate _ => true
  | _ => false

/-- An `installBrowser` call. -/
def isInstall : Event → Bool
  | .installEv _ => true
  | _ => false


lemma resolveExec_trace_cases (bt : BrowserType) (p : String) (w : ItemWorld) :
    (resolveExec bt p w).1 = [] ∨
    (resolveExec bt p w).1 = [Event.locate bt] ∨
    (resolveExec bt p w).1 = [Event.locate bt, Event.installEv bt] ∨
    (resolveExec bt p w).1 = [Event.locate bt, Event.installEv bt, Event.locate bt] := by
  unfold resolveExec
  repeat' split
  all_goals simp

lemma acquire_trace_cases (cfg : ItemCfg) (creds : Credentials) (w : ItemWorld) :
    (acquire cfg creds w).1 = [] ∨
    (acquire cfg creds w).1 =
      [Event.cdpConnect creds.endpointUrl (effSlowMo cfg.browserOptions)] ∨
    (acquire cfg creds w).1 = (resolveExec cfg.browserType creds.executablePath w).1 ∨
    ∃ pa, (acquire cfg creds w).1 =
      (resolveExec cfg.browserType creds.executablePath w).1 ++
        [Event.launchEv (effHeadless cfg.browserOptions) (effSlowMo cfg.browserOptions) pa] := by
  unfold acquire
  rcases hres : resolveExec cfg.browserType creds.executablePath w with ⟨rtr, rr⟩
  repeat' split
  all_goals simp_all

lemma afterAcquire_trace_cases (cfg : ItemCfg) (w : ItemWorld) :
    (afterAcquire cfg w).1 = [Event.ctxOpen] ∨
    (afterAcquire cfg w).1 = [Event.ctxOpen, Event.pageOpen] ∨
    (afterAcquire cfg w).1 = [Event.ctxOpen, Event.pageOpen, Event.script] ∨
    (afterAcquire cfg w).1 =
      [Event.ctxOpen, Event.pageOpen, Event.script, Event.close] ∨
    (afterAcquire cfg w).1 = [Event.ctxOpen, Event.pageOpen, Event.gotoUrl cfg.url] ∨
    (afterAcquire cfg w).1 =
      [Event.ctxOpen, Event.pageOpen, Event.gotoUrl cfg.url,
        Event.dispatch cfg.operation] ∨
    (afterAcquire cfg w).1 =
      [Event.ctxOpen, Event.pageOpen, Event.gotoUrl cfg.url,
        Event.dispatch cfg.operation, Event.close] := by
  unfold afterAcquire
  repeat' split
  all_goals simp

lemma afterAcquire_events (cfg : ItemCfg) (w : ItemWorld) :
    ∀ ev ∈ (afterAcquire cfg w).1,
      ev = Event.ctxOpen ∨ ev = Event.pageOpen ∨ ev = Event.gotoUrl cfg.url ∨
      ev = Event.dispatch cfg.operation ∨ ev = Event.script ∨ ev = Event.close := by
  intro ev hev
  rcases afterAcquire_trace_cases cfg w with h | h | h | h | h | h | h <;>
    rw [h] at hev <;> simp at hev <;> tauto

lemma afterAcquire_countP_acquire (cfg : ItemCfg) (w : ItemWorld) :
    (afterAcquire cfg w).1.countP (fun ev => isAcquireEv ev) = 0 := by
  rw [List.countP_eq_zero]
  intro ev hev
  rcases afterAcquire_events cfg w ev hev with h | h | h | h | h | h <;>
    simp [h, isAcquireEv]

/-- Shape of `processItem` once the credentials fetch succeeded. -/
lemma processItem_eq (cfg : ItemCfg) (w : ItemWorld) (creds : Credentials)
    (hc : w.getCredentials = .ok creds) :
    processItem cfg w =
      match acquire cfg creds w with
      | (tr, .error e) => (Event.credsCall :: tr, .error e)
      | (tr, .ok _) =>
        (Event.credsCall :: (tr ++ (afterAcquire cfg w).1), (afterAcquire cfg w).2) := by
  unfold processItem
  rw [hc]

/-! ## Concrete fixtures for witnesses and counterexamples -/

/-- Launch-mode credentials with an explicit executable path. -/
def launchCreds : Credentials :=
  { connectionType := "launch", executablePath := "/usr/bin/cb", endpointUrl := "" }

/-- Connect-mode credentials. -/
def connectCreds : Credentials :=
  { connectionType := "connect", executablePath := "", endpointUrl := "ws://127.0.0.1:9222/x" }

/-- A world in which every external call succeeds. -/
def allOkWorld : ItemWorld :=
  { getCredentials := .ok launchCreds
    connectOverCDP := .ok ()
    locate1 := .ok "/bundled/one"
    install := .ok ()
    locate2 := .ok "/bundled/two"
    launch := .ok ()
    newContext := .ok ()
    newPage := .ok ()
    goPage := .ok ()
    handleOperation := .ok (NodeItem.data 7)
    runScript := .ok [NodeItem.data 1, NodeItem.data 2]
    close := .ok () }

/-- A navigate item configuration. -/
def navCfg : ItemCfg :=
  { operation := "navigate", browserType := BrowserType.chromium
    browserOptions := { headless := none, slowMo := none }
    url := "https://example.com" }

/-- A custom-script item configuration. -/
def scriptCfg : ItemCfg :=
  { operation := "runCustomScript", browserType := BrowserType.chromium
    browserOptions := { headless := none, slowMo := none }
    url := "" }

/-! ## Claims -/

/-- Claim C1: for an item processed with `connectionType = connect` and a
browser kind other than chromium, processing fails with the
"Connect Over CDP is only supported for Chromium-based browsers" error and
`connectOverCDP` is never invoked for that item: the trace consists of the
credentials fetch alone, before any connection attempt. -/
theorem C1_connect_nonchromium_fails_before_connect
    (cfg : ItemCfg) (w : ItemWorld) (creds : Credentials)
    (hc : w.getCredentials = .ok creds)
    (hconn : creds.connectionType = "connect")
    (hbt : cfg.browserType ≠ BrowserType.chromium) :
    processItem cfg w = ([Event.credsCall], .error cdpErrMsg) ∧
    ∀ u s, Event.cdpConnect u s ∉ (processItem cfg w).1 := by
  have hacq : acquire cfg creds w = ([], .error cdpErrMsg) := by
    unfold acquire
    rw [hconn]
    simp [hbt]
  have h1 : processItem cfg w = ([Event.credsCall], .error cdpErrMsg) := by
    rw [processItem_eq cfg w creds hc, hacq]
  refine ⟨h1, ?_⟩
  intro u s
  rw [h1]
  simp

/-- Witness for C1 at a concrete item: firefox with connect credentials. -/
theorem C1_witness :
    processItem { navCfg with browserType := BrowserType.firefox }
        { allOkWorld with getCredentials := .ok connectCreds } =
      ([Event.credsCall], .error cdpErrMsg) :=
  (C1_connect_nonchromium_fails_before_connect
    { navCfg with browserType := BrowserType.firefox }
    { allOkWorld with getCredentials := .ok connectCreds }
    connectCreds rfl rfl (by decide)).1

/-- The items one input item contributes to `returnData`: its result on
success, the single `{error, browserType, os}` record under
continue-on-fail otherwise. -/
def itemOut (os : String) (it : RunItem) : List NodeItem :=
  match processItem it.cfg it.world with
  | (_, .ok out) => out
  | (_, .error e) => [NodeItem.errorRecord e it.cfg.browserType os]

/-- With continue-on-fail enabled the loop attempts every item and collects,
in item order, each item's contribution. -/
lemma execute_cof_true (os : String) (items : List RunItem) :
    execute true os items =
      (items.map (fun it => (processItem it.cfg it.world).1),
        .ok ((items.map (fun it => itemOut os it)).flatten)) := by
  induction items with
  | nil => simp [execute]
  | cons it rest ih =>
    unfold execute
    rcases h : processItem it.cfg it.world with ⟨tr, r⟩
    cases r with
    | ok out =>
      rw [ih]
      simp [itemOut, h]
    | error e =>
      rw [ih]
      simp [itemOut, h]

/-- When every item succeeds, the loop collects each item's contribution in
order, whatever the continue-on-fail setting. -/
lemma execute_all_ok (cof : Bool) (os : String) (items : List RunItem)
    (hok : ∀ it ∈ items, ∃ o, (processItem it.cfg it.world).2 = .ok o) :
    execute cof os items =
      (items.map (fun it => (processItem it.cfg it.world).1),
        .ok ((items.map (fun it => itemOut os it)).flatten)) := by
  induction items with
  | nil => simp [execute]
  | cons it rest ih =>
    rcases hok it (by simp) with ⟨o, ho⟩
    rcases h : processItem it.cfg it.world with ⟨tr, r⟩
    rw [h] at ho
    simp at ho
    subst ho
    unfold execute
    rw [h, ih fun x hx => hok x (by simp [hx])]
    simp [itemOut, h]

/-- Decomposition of the success result of the post-acquisition phase. -/
lemma afterAcquire_ok_cases (cfg : ItemCfg) (w : ItemWorld) (out : List NodeItem)
    (h : (afterAcquire cfg w).2 = .ok out) :
    w.newContext = .ok () ∧ w.newPage = .ok () ∧ w.close = .ok () ∧
    ((cfg.operation = "runCustomScript" ∧ w.runScript = .ok out) ∨
      (cfg.operation ≠ "runCustomScript" ∧ w.goPage = .ok () ∧
        ∃ r, w.handleOperation = .ok r ∧ out = [r])) := by
  unfold afterAcquire at h
  rcases hnc : w.newContext with e | ⟨⟩ <;> rw [hnc] at h
  · simp at h
  rcases hnp : w.newPage with e | ⟨⟩ <;> rw [hnp] at h
  · simp at h
  by_cases hop : cfg.operation = "runCustomScript"
  · rw [if_pos hop] at h
    rcases hrs : w.runScript with e | l <;> rw [hrs] at h
    · simp at h
    rcases hcl : w.close with e | ⟨⟩ <;> rw [hcl] at h
    · simp at h
    simp at h
    subst h
    exact ⟨rfl, rfl, rfl, Or.inl ⟨hop, rfl⟩⟩
  · rw [if_neg hop] at h
    rcases hgo : w.goPage with e | ⟨⟩ <;> rw [hgo] at h
    · simp at h
    rcases hho : w.handleOperation with e | r <;> rw [hho] at h
    · simp at h
    rcases hcl : w.close with e | ⟨⟩ <;> rw [hcl] at h
    · simp at h
    simp at h
    subst h
    exact ⟨rfl, rfl, rfl, Or.inr ⟨hop, rfl, r, rfl, rfl⟩⟩

/-- Decomposition of a successful item: the script branch passes the script's
items through, any other branch pushes exactly the one dispatcher item. -/
lemma processItem_ok_cases (cfg : ItemCfg) (w : ItemWorld) (out : List NodeItem)
    (h : (processItem cfg w).2 = .ok out) :
    (cfg.operation = "runCustomScript" ∧ w.runScript = .ok out) ∨
    (cfg.operation ≠ "runCustomScript" ∧ ∃ r, w.handleOperation = .ok r ∧ out = [r]) := by
  rcases hgc : w.getCredentials with e | creds
  · unfold processItem at h
    rw [hgc] at h
    simp at h
  · rw [processItem_eq cfg w creds hgc] at h
    rcases hacq : acquire cfg creds w with ⟨tr, r⟩
    rw [hacq] at h
    cases r with
    | error e => simp at h
    | ok u =>
      simp at h
      rcases afterAcquire_ok_cases cfg w out h with ⟨_, _, _, hcase⟩
      rcases hcase with ⟨hop, hrs⟩ | ⟨hop, _, r, hr, hout⟩
      · exact Or.inl ⟨hop, hrs⟩
      · exact Or.inr ⟨hop, r, hr, hout⟩

/-- An item whose credentials fetch rejects with "boom". -/
def failItem : RunItem :=
  { cfg := navCfg, world := { allOkWorld with getCredentials := .error "boom" } }

/-- A successful custom-script item whose script returns two items. -/
def scriptItem : RunItem := { cfg := scriptCfg, world := allOkWorld }

/-- Counterexample to claim C2 as stated: with continue-on-fail enabled, a
preceding `runCustomScript` item returning two items shifts the error record
of the failing item 1 to output position 2, so the output at position 1 is a
script data item and not the error record. -/
theorem C2_counterexample :
    (execute true "linux" [scriptItem, failItem]).2 =
      .ok [NodeItem.data 1, NodeItem.data 2,
        NodeItem.errorRecord "boom" BrowserType.chromium "linux"] ∧
    ((execute true "linux" [scriptItem, failItem]).2.toOption.getD []).get? 1 =
      some (NodeItem.data 2) ∧
    ((execute true "linux" [scriptItem, failItem]).2.toOption.getD []).get? 1 ≠
      some (NodeItem.errorRecord "boom" BrowserType.chromium "linux") :=
  ⟨rfl, rfl, by decide⟩

/-- Claim C2 (amended): when continue-on-fail is enabled and processing of
item i raises any error, item i contributes exactly one error record — whose
structured fields carry the error message, the failing item's browser kind
and the host operating-system identifier — to the output, contributions are
concatenated in input-item order, and every item (in particular item i+1) is
attempted. -/
theorem C2_continue_on_fail_error_record
    (os : String) (items : List RunItem) (i : Nat) (it : RunItem)
    (_hi : items.get? i = some it) (e : String) (tr : List Event)
    (hfail : processItem it.cfg it.world = (tr, .error e)) :
    itemOut os it = [NodeItem.errorRecord e it.cfg.browserType os] ∧
    (execute true os items).2 = .ok ((items.map (fun x => itemOut os x)).flatten) ∧
    (execute true os items).1.length = items.length := by
  refine ⟨?_, ?_, ?_⟩
  · unfold itemOut
    rw [hfail]
  · rw [execute_cof_true]
  · rw [execute_cof_true]
    simp

/-- Witness for the amended C2 at a concrete run: item 1 fails fetching
credentials and contributes exactly its error record. -/
theorem C2_witness :
    ([scriptItem, failItem] : List RunItem).get? 1 = some failItem ∧
    itemOut "linux" failItem =
      [NodeItem.errorRecord "boom" BrowserType.chromium "linux"] :=
  ⟨rfl, (C2_continue_on_fail_error_record "linux" [scriptItem, failItem] 1 failItem
    rfl "boom" [Event.credsCall] rfl).1⟩

/-- Claim C5: absent failure, the output is the in-order concatenation of the
items' contributions; an item with operation other than `runCustomScript`
contributes exactly one item, and a `runCustomScript` item contributes
exactly the list the script returned (possibly empty). -/
theorem C5_output_cardinality (cof : Bool) (os : String) (items : List RunItem)
    (hok : ∀ it ∈ items, ∃ o, (processItem it.cfg it.world).2 = .ok o) :
    (execute cof os items).2 = .ok ((items.map (fun it => itemOut os it)).flatten) ∧
    (∀ it ∈ items, it.cfg.operation ≠ "runCustomScript" →
      (itemOut os it).length = 1) ∧
    (∀ it ∈ items, it.cfg.operation = "runCustomScript" →
      it.world.runScript = .ok (itemOut os it)) := by
  refine ⟨by rw [execute_all_ok cof os items hok], ?_, ?_⟩
  · intro it hit hop
    rcases hok it hit with ⟨o, ho⟩
    have hio : itemOut os it = o := by
      unfold itemOut
      rcases h : processItem it.cfg it.world with ⟨tr, r⟩
      rw [h] at ho
      simp at ho
      rw [ho]
    rw [hio]
    rcases processItem_ok_cases it.cfg it.world o ho with ⟨h1, _⟩ | ⟨_, r, _, hout⟩
    · exact absurd h1 hop
    · rw [hout]
      rfl
  · intro it hit hop
    rcases hok it hit with ⟨o, ho⟩
    have hio : itemOut os it = o := by
      unfold itemOut
      rcases h : processItem it.cfg it.world with ⟨tr, r⟩
      rw [h] at ho
      simp at ho
      rw [ho]
    rw [hio]
    rcases processItem_ok_cases it.cfg it.world o ho with ⟨_, hrs⟩ | ⟨h1, _⟩
    · exact hrs
    · exact absurd hop h1

/-- Witness for C5 at a concrete run: a navigate item contributing one item
followed by a script item contributing two. -/
theorem C5_witness :
    (execute false "linux" [⟨navCfg, allOkWorld⟩, scriptItem]).2 =
      .ok ((([⟨navCfg, allOkWorld⟩, scriptItem] : List RunItem).map
        (fun it => itemOut "linux" it)).flatten) :=
  (C5_output_cardinality false "linux" [⟨navCfg, allOkWorld⟩, scriptItem]
    (by
      intro it hit
      simp at hit
      rcases hit with rfl | rfl
      · exact ⟨[NodeItem.data 7], rfl⟩
      · exact ⟨[NodeItem.data 1, NodeItem.data 2], rfl⟩)).1

/-- Claim C6: with continue-on-fail disabled, the first failing item makes
the whole run propagate its error — no output list is produced at all (in
particular items i..n-1 contribute nothing) and no item after the failing
one is attempted: the collected traces are exactly those of items 0..i. -/
theorem C6_fail_fast (os : String) (pre : List RunItem) (bad : RunItem)
    (post : List RunItem) (e : String) (tr : List Event)
    (hok : ∀ it ∈ pre, ∃ o, (processItem it.cfg it.world).2 = .ok o)
    (hbad : processItem bad.cfg bad.world = (tr, .error e)) :
    execute false os (pre ++ bad :: post) =
      (pre.map (fun it => (processItem it.cfg it.world).1) ++ [tr], .error e) := by
  induction pre with
  | nil =>
    simp only [List.nil_append, List.map_nil]
    unfold execute
    rw [hbad]
    simp
  | cons it rest ih =>
    rcases hok it (by simp) with ⟨o, ho⟩
    rcases h : processItem it.cfg it.world with ⟨tr0, r⟩
    rw [h] at ho
    simp at ho
    subst ho
    show execute false os (it :: (rest ++ bad :: post)) = _
    unfold execute
    rw [h, ih fun x hx => hok x (by simp [hx])]
    simp [h]

/-- Witness for C6 at a concrete run: one successful navigate item, then a
failing item, then one never-attempted item. -/
theorem C6_witness :
    execute false "linux" [⟨navCfg, allOkWorld⟩, failItem, scriptItem] =
      (([⟨navCfg, allOkWorld⟩] : List RunItem).map
        (fun it => (processItem it.cfg it.world).1) ++ [[Event.credsCall]],
        .error "boom") :=
  C6_fail_fast "linux" [⟨navCfg, allOkWorld⟩] failItem [scriptItem] "boom"
    [Event.credsCall]
    (by
      intro it hit
      simp at hit
      subst hit
      exact ⟨[NodeItem.data 7], rfl⟩)
    rfl

lemma afterAcquire_no_locate (cfg : ItemCfg) (w : ItemWorld) :
    (afterAcquire cfg w).1.countP isLocate = 0 := by
  rw [List.countP_eq_zero]
  intro ev hev
  rcases afterAcquire_events cfg w ev hev with h | h | h | h | h | h <;>
    simp [h, isLocate]

lemma afterAcquire_no_install (cfg : ItemCfg) (w : ItemWorld) :
    (afterAcquire cfg w).1.countP isInstall = 0 := by
  rw [List.countP_eq_zero]
  intro ev hev
  rcases afterAcquire_events cfg w ev hev with h | h | h | h | h | h <;>
    simp [h, isInstall]

lemma afterAcquire_no_launch (cfg : ItemCfg) (w : ItemWorld) :
    ∀ h s p, Event.launchEv h s p ∉ (afterAcquire cfg w).1 := by
  intro h s p hmem
  rcases afterAcquire_events cfg w _ hmem with heq | heq | heq | heq | heq | heq <;>
    simp at heq

lemma afterAcquire_no_cdp (cfg : ItemCfg) (w : ItemWorld) :
    ∀ u s, Event.cdpConnect u s ∉ (afterAcquire cfg w).1 := by
  intro u s hmem
  rcases afterAcquire_events cfg w _ hmem with heq | heq | heq | heq | heq | heq <;>
    simp at heq

/-- In launch mode, `processItem` either stops inside path resolution with
its error, or performs resolution, then the launch call, then (when the
launch succeeded) the post-acquisition phase. -/
lemma processItem_launch_facts (cfg : ItemCfg) (w : ItemWorld) (creds : Credentials)
    (hc : w.getCredentials = .ok creds) (hl : creds.connectionType ≠ "connect")
    (rtr : List Event) (rres : Except String String)
    (hre : resolveExec cfg.browserType creds.executablePath w = (rtr, rres)) :
    (∀ e, rres = .error e →
      processItem cfg w = (Event.credsCall :: rtr, .error e)) ∧
    (∀ p, rres = .ok p →
      (processItem cfg w).1 =
          Event.credsCall :: (rtr ++ [Event.launchEv (effHeadless cfg.browserOptions)
            (effSlowMo cfg.browserOptions) p]) ∨
      (processItem cfg w).1 =
          Event.credsCall :: ((rtr ++ [Event.launchEv (effHeadless cfg.browserOptions)
            (effSlowMo cfg.browserOptions) p]) ++ (afterAcquire cfg w).1)) := by
  constructor
  · intro e her
    subst her
    have hacq : acquire cfg creds w = (rtr, .error e) := by
      unfold acquire
      rw [if_neg hl, hre]
    rw [processItem_eq cfg w creds hc, hacq]
  · intro p hok
    subst hok
    rcases hlw : w.launch with e | ⟨⟩
    · have hacq : acquire cfg creds w =
          (rtr ++ [Event.launchEv (effHeadless cfg.browserOptions)
            (effSlowMo cfg.browserOptions) p], .error e) := by
        unfold acquire
        rw [if_neg hl, hre]
        simp [hlw]
      left
      rw [processItem_eq cfg w creds hc, hacq]
    · have hacq : acquire cfg creds w =
          (rtr ++ [Event.launchEv (effHeadless cfg.browserOptions)
            (effSlowMo cfg.browserOptions) p], .ok ()) := by
        unfold acquire
        rw [if_neg hl, hre]
        simp [hlw]
      right
      rw [processItem_eq cfg w creds hc, hacq]

/-- Claim C3: in launch mode the executable path is resolved credential path
first; otherwise the locator is consulted; on locator failure the installer
runs exactly once and the locator is retried exactly once; a failing retry
(or a failing install) is fatal for the item with no further retry and no
launch attempt. -/
theorem C3_exec_path_resolution (cfg : ItemCfg) (w : ItemWorld) (creds : Credentials)
    (hc : w.getCredentials = .ok creds) (hl : creds.connectionType ≠ "connect") :
    (creds.executablePath ≠ "" →
      (processItem cfg w).1.countP isLocate = 0 ∧
      (processItem cfg w).1.countP isInstall = 0 ∧
      ∀ h s p, Event.launchEv h s p ∈ (processItem cfg w).1 →
        p = creds.executablePath) ∧
    (creds.executablePath = "" →
      (∀ p, w.locate1 = .ok p →
        (processItem cfg w).1.countP isLocate = 1 ∧
        (processItem cfg w).1.countP isInstall = 0 ∧
        ∀ h s p2, Event.launchEv h s p2 ∈ (processItem cfg w).1 → p2 = p) ∧
      (∀ e1, w.locate1 = .error e1 →
        (processItem cfg w).1.countP isInstall = 1 ∧
        (∀ p, w.install = .ok () → w.locate2 = .ok p →
          (processItem cfg w).1.countP isLocate = 2 ∧
          ∀ h s p2, Event.launchEv h s p2 ∈ (processItem cfg w).1 → p2 = p) ∧
        (∀ e2, w.install = .ok () → w.locate2 = .error e2 →
          (processItem cfg w).2 = .error e2 ∧
          (processItem cfg w).1.countP isLocate = 2 ∧
          ∀ h s p, Event.launchEv h s p ∉ (processItem cfg w).1) ∧
        (∀ e2, w.install = .error e2 → (processItem cfg w).2 = .error e2))) := by
  constructor
  · intro hp
    have hre : resolveExec cfg.browserType creds.executablePath w =
        ([], .ok creds.executablePath) := by
      unfold resolveExec
      rw [if_neg hp]
    have h2 := (processItem_launch_facts cfg w creds hc hl _ _ hre).2
      creds.executablePath rfl
    refine ⟨?_, ?_, ?_⟩
    · rcases h2 with htr | htr <;> rw [htr] <;>
        simp [List.countP_cons, List.countP_append, isLocate, afterAcquire_no_locate]
    · rcases h2 with htr | htr <;> rw [htr] <;>
        simp [List.countP_cons, List.countP_append, isInstall, afterAcquire_no_install]
    · intro h s p hmem
      rcases h2 with htr | htr
      · rw [htr] at hmem
        simp at hmem
        exact hmem.2.2
      · rw [htr] at hmem
        simp at hmem
        rcases hmem with hmem | hmem
        · exact hmem.2.2
        · exact absurd hmem (afterAcquire_no_launch cfg w h s p)
  · intro hp
    constructor
    · intro p hl1
      have hre : resolveExec cfg.browserType creds.executablePath w =
          ([Event.locate cfg.browserType], .ok p) := by
        unfold resolveExec
        rw [if_pos hp, hl1]
      have h2 := (processItem_launch_facts cfg w creds hc hl _ _ hre).2 p rfl
      refine ⟨?_, ?_, ?_⟩
      · rcases h2 with htr | htr <;> rw [htr] <;>
          simp [List.countP_cons, List.countP_append, isLocate, afterAcquire_no_locate]
      · rcases h2 with htr | htr <;> rw [htr] <;>
          simp [List.countP_cons, List.countP_append, isInstall, afterAcquire_no_install]
      · intro h s p2 hmem
        rcases h2 with htr | htr
        · rw [htr] at hmem
          simp at hmem
          exact hmem.2.2
        · rw [htr] at hmem
          simp at hmem
          rcases hmem with hmem | hmem
          · exact hmem.2.2
          · exact absurd hmem (afterAcquire_no_launch cfg w h s p2)
    · intro e1 hl1
      rcases hinst : w.install with e2 | ⟨⟩
      · have hre : resolveExec cfg.browserType creds.executablePath w =
            ([Event.locate cfg.browserType, Event.installEv cfg.browserType],
              .error e2) := by
          unfold resolveExec
          rw [if_pos hp, hl1, hinst]
        have h1 := (processItem_launch_facts cfg w creds hc hl _ _ hre).1 e2 rfl
        refine ⟨?_, ?_, ?_, ?_⟩
        · rw [h1]
          simp [List.countP_cons, isInstall, isLocate]
        · intro p h hl2
          simp [hinst] at h
        · intro e h hl2
          simp [hinst] at h
        · intro e h
          simp at h
          subst h
          rw [h1]
      · constructor
        · rcases hl2 : w.locate2 with e2 | p
          · have hre : resolveExec cfg.browserType creds.executablePath w =
                ([Event.locate cfg.browserType, Event.installEv cfg.browserType,
                  Event.locate cfg.browserType], .error e2) := by
              unfold resolveExec
              rw [if_pos hp, hl1, hinst, hl2]
            have h1 := (processItem_launch_facts cfg w creds hc hl _ _ hre).1 e2 rfl
            rw [h1]
            simp [List.countP_cons, isInstall, isLocate]
          · have hre : resolveExec cfg.browserType creds.executablePath w =
                ([Event.locate cfg.browserType, Event.installEv cfg.browserType,
                  Event.locate cfg.browserType], .ok p) := by
              unfold resolveExec
              rw [if_pos hp, hl1, hinst, hl2]
            have h2 := (processItem_launch_facts cfg w creds hc hl _ _ hre).2 p rfl
            rcases h2 with htr | htr <;> rw [htr] <;>
              simp [List.countP_cons, List.countP_append, isInstall, isLocate,
                afterAcquire_no_install]
        refine ⟨?_, ?_, ?_⟩
        · intro p _ hl2
          have hre : resolveExec cfg.browserType creds.executablePath w =
              ([Event.locate cfg.browserType, Event.installEv cfg.browserType,
                Event.locate cfg.browserType], .ok p) := by
            unfold resolveExec
            rw [if_pos hp, hl1, hinst, hl2]
          have h2 := (processItem_launch_facts cfg w creds hc hl _ _ hre).2 p rfl
          constructor
          · rcases h2 with htr | htr <;> rw [htr] <;>
              simp [List.countP_cons, List.countP_append, isLocate,
                afterAcquire_no_locate]
          · intro h s p2 hmem
            rcases h2 with htr | htr
            · rw [htr] at hmem
              simp at hmem
              exact hmem.2.2
            · rw [htr] at hmem
              simp at hmem
              rcases hmem with hmem | hmem
              · exact hmem.2.2
              · exact absurd hmem (afterAcquire_no_launch cfg w h s p2)
        · intro e2 _ hl2
          have hre : resolveExec cfg.browserType creds.executablePath w =
              ([Event.locate cfg.browserType, Event.installEv cfg.browserType,
                Event.locate cfg.browserType], .error e2) := by
            unfold resolveExec
            rw [if_pos hp, hl1, hinst, hl2]
          have h1 := (processItem_launch_facts cfg w creds hc hl _ _ hre).1 e2 rfl
          refine ⟨?_, ?_, ?_⟩
          · rw [h1]
          · rw [h1]
            simp [List.countP_cons, isLocate]
          · intro h s p hmem
            rw [h1] at hmem
            simp at hmem
        · intro e2 h
          simp at h

/-- Launch credentials with an empty executable path. -/
def emptyPathCreds : Credentials :=
  { connectionType := "launch", executablePath := "", endpointUrl := "" }

/-- A world where the first locate fails and the post-install retry
succeeds. -/
def retryWorld : ItemWorld :=
  { allOkWorld with
      getCredentials := .ok emptyPathCreds
      locate1 := .error "not installed" }

/-- Witness for C3 at a concrete item: empty credential path, first locate
fails, install runs once and the retried locate succeeds. -/
theorem C3_witness :
    (processItem navCfg retryWorld).1.countP isInstall = 1 ∧
    (processItem navCfg retryWorld).1.countP isLocate = 2 :=
  have h := C3_exec_path_resolution navCfg retryWorld emptyPathCreds rfl (by decide)
  ⟨((h.2 rfl).2 "not installed" rfl).1,
    (((h.2 rfl).2 "not installed" rfl).2.1 "/bundled/two" rfl rfl).1⟩

lemma resolveExec_mem_cases (bt : BrowserType) (p : String) (w : ItemWorld)
    (ev : Event) (hev : ev ∈ (resolveExec bt p w).1) :
    ev = Event.locate bt ∨ ev = Event.installEv bt := by
  rcases resolveExec_trace_cases bt p w with h | h | h | h <;> rw [h] at hev <;>
    simp at hev <;> tauto

lemma acquire_mem_cases (cfg : ItemCfg) (creds : Credentials) (w : ItemWorld)
    (ev : Event) (hev : ev ∈ (acquire cfg creds w).1) :
    (∃ u s, ev = Event.cdpConnect u s) ∨ ev = Event.locate cfg.browserType ∨
    ev = Event.installEv cfg.browserType ∨ ∃ h s p, ev = Event.launchEv h s p := by
  rcases acquire_trace_cases cfg creds w with h | h | h | ⟨pa, h⟩ <;> rw [h] at hev
  · simp at hev
  · simp at hev
    exact Or.inl ⟨creds.endpointUrl, effSlowMo cfg.browserOptions, hev⟩
  · rcases resolveExec_mem_cases _ _ _ _ hev with h2 | h2 <;> tauto
  · simp at hev
    rcases hev with hev | hev
    · rcases resolveExec_mem_cases _ _ _ _ hev with h2 | h2 <;> tauto
    · exact Or.inr (Or.inr (Or.inr ⟨_, _, _, hev⟩))

/-- The trace of one item is the credentials fetch alone, or followed by the
acquisition calls, or followed by acquisition and post-acquisition calls. -/
lemma processItem_trace_split (cfg : ItemCfg) (w : ItemWorld) :
    (processItem cfg w).1 = [Event.credsCall] ∨
    (∃ creds, w.getCredentials = .ok creds ∧
      (processItem cfg w).1 = Event.credsCall :: (acquire cfg creds w).1) ∨
    (∃ creds, w.getCredentials = .ok creds ∧
      (processItem cfg w).1 =
        Event.credsCall :: ((acquire cfg creds w).1 ++ (afterAcquire cfg w).1)) := by
  rcases hgc : w.getCredentials with e | creds
  · left
    unfold processItem
    rw [hgc]
  · rw [processItem_eq cfg w creds hgc]
    rcases hacq : acquire cfg creds w with ⟨tr, r⟩
    cases r
    · exact Or.inr (Or.inl ⟨creds, rfl, by rw [hacq]⟩)
    · exact Or.inr (Or.inr ⟨creds, rfl, by rw [hacq]⟩)

/-- Post-acquisition trace shapes for a `runCustomScript` item: no
navigation and no dispatcher call ever appears. -/
lemma afterAcquire_script_trace (cfg : ItemCfg) (w : ItemWorld)
    (hop : cfg.operation = "runCustomScript") :
    (afterAcquire cfg w).1 = [Event.ctxOpen] ∨
    (afterAcquire cfg w).1 = [Event.ctxOpen, Event.pageOpen] ∨
    (afterAcquire cfg w).1 = [Event.ctxOpen, Event.pageOpen, Event.script] ∨
    (afterAcquire cfg w).1 =
      [Event.ctxOpen, Event.pageOpen, Event.script, Event.close] := by
  unfold afterAcquire
  rcases hnc : w.newContext with e | ⟨⟩
  · simp
  rcases hnp : w.newPage with e | ⟨⟩
  · simp
  rw [if_pos hop]
  rcases hrs : w.runScript with e | l
  · simp
  rcases hcl : w.close with e | ⟨⟩ <;> simp

/-- Post-acquisition trace shapes for a non-script item: the dispatcher call
appears only right after a successful navigation to the item's URL. -/
lemma afterAcquire_nonscript_trace (cfg : ItemCfg) (w : ItemWorld)
    (hop : cfg.operation ≠ "runCustomScript") :
    (afterAcquire cfg w).1 = [Event.ctxOpen] ∨
    (afterAcquire cfg w).1 = [Event.ctxOpen, Event.pageOpen] ∨
    (afterAcquire cfg w).1 = [Event.ctxOpen, Event.pageOpen, Event.gotoUrl cfg.url] ∨
    (w.goPage = .ok () ∧
      ((afterAcquire cfg w).1 =
          [Event.ctxOpen, Event.pageOpen, Event.gotoUrl cfg.url,
            Event.dispatch cfg.operation] ∨
        (afterAcquire cfg w).1 =
          [Event.ctxOpen, Event.pageOpen, Event.gotoUrl cfg.url,
            Event.dispatch cfg.operation, Event.close])) := by
  unfold afterAcquire
  rcases hnc : w.newContext with e | ⟨⟩
  · simp
  rcases hnp : w.newPage with e | ⟨⟩
  · simp
  rw [if_neg hop]
  rcases hgo : w.goPage with e | ⟨⟩
  · simp
  rcases hho : w.handleOperation with e | r
  · simp
  rcases hcl : w.close with e | ⟨⟩ <;> simp

/-- Claim C4: a `runCustomScript` item never navigates (and never reaches the
operation dispatcher); any other item reaches the dispatcher only immediately
after a successful navigation of the page to the item's configured URL (and
never reaches the script runner). -/
theorem C4_navigate_before_dispatch (cfg : ItemCfg) (w : ItemWorld) :
    (cfg.operation = "runCustomScript" →
      (∀ u, Event.gotoUrl u ∉ (processItem cfg w).1) ∧
      ∀ o, Event.dispatch o ∉ (processItem cfg w).1) ∧
    (cfg.operation ≠ "runCustomScript" →
      Event.script ∉ (processItem cfg w).1 ∧
      (Event.dispatch cfg.operation ∈ (processItem cfg w).1 →
        w.goPage = .ok () ∧
        ∃ t1 t2, (processItem cfg w).1 =
          t1 ++ Event.gotoUrl cfg.url :: Event.dispatch cfg.operation :: t2)) := by
  constructor
  · intro hop
    constructor
    · intro u hmem
      rcases processItem_trace_split cfg w with h | ⟨creds, hgc, h⟩ | ⟨creds, hgc, h⟩ <;>
        rw [h] at hmem <;> simp at hmem
      · rcases acquire_mem_cases cfg creds w _ hmem with ⟨a, b, he⟩ | he | he | ⟨a, b, c, he⟩ <;>
          simp at he
      · rcases hmem with hmem | hmem
        · rcases acquire_mem_cases cfg creds w _ hmem with ⟨a, b, he⟩ | he | he | ⟨a, b, c, he⟩ <;>
            simp at he
        · rcases afterAcquire_script_trace cfg w hop with h2 | h2 | h2 | h2 <;>
            rw [h2] at hmem <;> simp at hmem
    · intro o hmem
      rcases processItem_trace_split cfg w with h | ⟨creds, hgc, h⟩ | ⟨creds, hgc, h⟩ <;>
        rw [h] at hmem <;> simp at hmem
      · rcases acquire_mem_cases cfg creds w _ hmem with ⟨a, b, he⟩ | he | he | ⟨a, b, c, he⟩ <;>
          simp at he
      · rcases hmem with hmem | hmem
        · rcases acquire_mem_cases cfg creds w _ hmem with ⟨a, b, he⟩ | he | he | ⟨a, b, c, he⟩ <;>
            simp at he
        · rcases afterAcquire_script_trace cfg w hop with h2 | h2 | h2 | h2 <;>
            rw [h2] at hmem <;> simp at hmem
  · intro hop
    constructor
    · intro hmem
      rcases processItem_trace_split cfg w with h | ⟨creds, hgc, h⟩ | ⟨creds, hgc, h⟩ <;>
        rw [h] at hmem <;> simp at hmem
      · rcases acquire_mem_cases cfg creds w _ hmem with ⟨a, b, he⟩ | he | he | ⟨a, b, c, he⟩ <;>
          simp at he
      · rcases hmem with hmem | hmem
        · rcases acquire_mem_cases cfg creds w _ hmem with ⟨a, b, he⟩ | he | he | ⟨a, b, c, he⟩ <;>
            simp at he
        · rcases afterAcquire_nonscript_trace cfg w hop with h2 | h2 | h2 | ⟨hgo, h2 | h2⟩ <;>
            rw [h2] at hmem <;> simp at hmem
    · intro hmem
      rcases processItem_trace_split cfg w with h | ⟨creds, hgc, h⟩ | ⟨creds, hgc, h⟩ <;>
        rw [h] at hmem
      · simp at hmem
      · simp at hmem
        rcases acquire_mem_cases cfg creds w _ hmem with ⟨a, b, he⟩ | he | he | ⟨a, b, c, he⟩ <;>
          simp at he
      · simp at hmem
        rcases hmem with hmem | hmem
        · rcases acquire_mem_cases cfg creds w _ hmem with ⟨a, b, he⟩ | he | he | ⟨a, b, c, he⟩ <;>
            simp at he
        · rcases afterAcquire_nonscript_trace cfg w hop with h2 | h2 | h2 | ⟨hgo, h2 | h2⟩
          · rw [h2] at hmem
            simp at hmem
          · rw [h2] at hmem
            simp at hmem
          · rw [h2] at hmem
            simp at hmem
          · refine ⟨hgo, Event.credsCall :: ((acquire cfg creds w).1 ++
              [Event.ctxOpen, Event.pageOpen]), [], ?_⟩
            rw [h, h2]
            simp
          · refine ⟨hgo, Event.credsCall :: ((acquire cfg creds w).1 ++
              [Event.ctxOpen, Event.pageOpen]), [Event.close], ?_⟩
            rw [h, h2]
            simp

/-- Witness for C4 at a concrete navigate item: the dispatcher call is
immediately preceded by the navigation to the configured URL. -/
theorem C4_witness :
    navCfg.operation ≠ "runCustomScript" ∧
    (allOkWorld.goPage = .ok () ∧
      ∃ t1 t2, (processItem navCfg allOkWorld).1 =
        t1 ++ Event.gotoUrl navCfg.url :: Event.dispatch navCfg.operation :: t2) :=
  ⟨by decide,
    ((C4_navigate_before_dispatch navCfg allOkWorld).2 (by decide)).2 (by decide)⟩

lemma acquire_all_acquireEv (cfg : ItemCfg) (creds : Credentials) (w : ItemWorld)
    (ev : Event) (hev : ev ∈ (acquire cfg creds w).1) : isAcquireEv ev = true := by
  rcases acquire_mem_cases cfg creds w ev hev with ⟨a, b, he⟩ | he | he | ⟨a, b, c, he⟩ <;>
    subst he <;> simp [isAcquireEv]

lemma resolveExec_no_browserAcquire (bt : BrowserType) (p : String) (w : ItemWorld) :
    (resolveExec bt p w).1.countP isBrowserAcquire = 0 := by
  rw [List.countP_eq_zero]
  intro ev hev
  rcases resolveExec_mem_cases bt p w ev hev with h | h <;> simp [h, isBrowserAcquire]


/-- A successful acquisition performed exactly one connection attempt or one
launch, as its last call. -/
lemma acquire_ok_trace (cfg : ItemCfg) (creds : Credentials) (w : ItemWorld)
    (h : (acquire cfg creds w).2 = .ok ()) :
    (acquire cfg creds w).1 =
      [Event.cdpConnect creds.endpointUrl (effSlowMo cfg.browserOptions)] ∨
    ∃ p, (acquire cfg creds w).1 =
      (resolveExec cfg.browserType creds.executablePath w).1 ++
        [Event.launchEv (effHeadless cfg.browserOptions)
          (effSlowMo cfg.browserOptions) p] := by
  by_cases hconn : creds.connectionType = "connect"
  · by_cases hbt : cfg.browserType ≠ BrowserType.chromium
    · have hacq : acquire cfg creds w = ([], .error cdpErrMsg) := by
        unfold acquire
        rw [if_pos hconn, if_pos hbt]
      rw [hacq] at h
      simp at h
    · rcases hcdp : w.connectOverCDP with e | ⟨⟩
      · have hacq : acquire cfg creds w =
            ([Event.cdpConnect creds.endpointUrl (effSlowMo cfg.browserOptions)],
              .error e) := by
          unfold acquire
          rw [if_pos hconn, if_neg hbt, hcdp]
        rw [hacq] at h
        simp at h
      · have hacq : acquire cfg creds w =
            ([Event.cdpConnect creds.endpointUrl (effSlowMo cfg.browserOptions)],
              .ok ()) := by
          unfold acquire
          rw [if_pos hconn, if_neg hbt, hcdp]
        exact Or.inl (by rw [hacq])
  · rcases hres : resolveExec cfg.browserType creds.executablePath w with ⟨rtr, rr⟩
    cases rr with
    | error e =>
      have hacq : acquire cfg creds w = (rtr, .error e) := by
        unfold acquire
        rw [if_neg hconn, hres]
      rw [hacq] at h
      simp at h
    | ok p =>
      rcases hlw : w.launch with e | ⟨⟩
      · have hacq : acquire cfg creds w =
            (rtr ++ [Event.launchEv (effHeadless cfg.browserOptions)
              (effSlowMo cfg.browserOptions) p], .error e) := by
          unfold acquire
          rw [if_neg hconn, hres]
          simp [hlw]
        rw [hacq] at h
        simp at h
      · have hacq : acquire cfg creds w =
            (rtr ++ [Event.launchEv (effHeadless cfg.browserOptions)
              (effSlowMo cfg.browserOptions) p], .ok ()) := by
          unfold acquire
          rw [if_neg hconn, hres]
          simp [hlw]
        refine Or.inr ⟨p, ?_⟩
        rw [hacq]

/-- A successful post-acquisition phase has one context open, one page open
and ends with the close call. -/
lemma afterAcquire_ok_trace (cfg : ItemCfg) (w : ItemWorld) (out : List NodeItem)
    (h : (afterAcquire cfg w).2 = .ok out) :
    (afterAcquire cfg w).1 =
      [Event.ctxOpen, Event.pageOpen, Event.script, Event.close] ∨
    (afterAcquire cfg w).1 =
      [Event.ctxOpen, Event.pageOpen, Event.gotoUrl cfg.url,
        Event.dispatch cfg.operation, Event.close] := by
  rcases afterAcquire_ok_cases cfg w out h with ⟨hnc, hnp, hcl, hbr⟩
  rcases hbr with ⟨hop, hrs⟩ | ⟨hop, hgo, r, hho, hout⟩
  · left
    unfold afterAcquire
    rw [hnc, hnp, if_pos hop, hrs, hcl]
  · right
    unfold afterAcquire
    rw [hnc, hnp, if_neg hop, hgo, hho, hcl]

/-- Trace of a successful item: credentials fetch, a successful acquisition,
then the full post-acquisition phase ending in the close call. -/
lemma processItem_ok_trace (cfg : ItemCfg) (w : ItemWorld) (out : List NodeItem)
    (h : (processItem cfg w).2 = .ok out) :
    ∃ creds, w.getCredentials = .ok creds ∧ (acquire cfg creds w).2 = .ok () ∧
      ((processItem cfg w).1 = Event.credsCall :: ((acquire cfg creds w).1 ++
          [Event.ctxOpen, Event.pageOpen, Event.script, Event.close]) ∨
        (processItem cfg w).1 = Event.credsCall :: ((acquire cfg creds w).1 ++
          [Event.ctxOpen, Event.pageOpen, Event.gotoUrl cfg.url,
            Event.dispatch cfg.operation, Event.close])) := by
  rcases hgc : w.getCredentials with e | creds
  · unfold processItem at h
    rw [hgc] at h
    simp at h
  · rw [processItem_eq cfg w creds hgc] at h ⊢
    rcases hacq : acquire cfg creds w with ⟨tr, r⟩
    rw [hacq] at h
    cases r with
    | error e => simp at h
    | ok u =>
      cases u
      simp at h
      refine ⟨creds, rfl, by rw [hacq], ?_⟩
      rcases afterAcquire_ok_trace cfg w out h with ht | ht
      · left
        rw [hacq]
        simp [ht]
      · right
        rw [hacq]
        simp [ht]

lemma acquire_launch_args (cfg : ItemCfg) (creds : Credentials) (w : ItemWorld)
    (h s : _) (p : String)
    (hmem : Event.launchEv h s p ∈ (acquire cfg creds w).1) :
    h = effHeadless cfg.browserOptions ∧ s = effSlowMo cfg.browserOptions := by
  rcases acquire_trace_cases cfg creds w with ht | ht | ht | ⟨pa, ht⟩ <;> rw [ht] at hmem
  · simp at hmem
  · simp at hmem
  · rcases resolveExec_mem_cases _ _ _ _ hmem with he | he <;> simp at he
  · simp at hmem
    rcases hmem with hmem | hmem
    · rcases resolveExec_mem_cases _ _ _ _ hmem with he | he <;> simp at he
    · exact ⟨hmem.1, hmem.2.1⟩

lemma acquire_cdp_args (cfg : ItemCfg) (creds : Credentials) (w : ItemWorld)
    (u : String) (s : Nat)
    (hmem : Event.cdpConnect u s ∈ (acquire cfg creds w).1) :
    s = effSlowMo cfg.browserOptions := by
  rcases acquire_trace_cases cfg creds w with ht | ht | ht | ⟨pa, ht⟩ <;> rw [ht] at hmem
  · simp at hmem
  · simp at hmem
    exact hmem.2
  · rcases resolveExec_mem_cases _ _ _ _ hmem with he | he <;> simp at he
  · simp at hmem
    rcases resolveExec_mem_cases _ _ _ _ hmem with he | he <;> simp at he

/-- Claim C7: every launch call carries headless = (the option is not
explicitly false) — true by default — and the item's effective slowMo
(configured value, defaulting to 0); every connect-over-CDP call carries the
same effective slowMo. -/
theorem C7_launch_and_connect_options (cfg : ItemCfg) (w : ItemWorld) :
    (∀ h s p, Event.launchEv h s p ∈ (processItem cfg w).1 →
      h = effHeadless cfg.browserOptions ∧ s = effSlowMo cfg.browserOptions) ∧
    (∀ u s, Event.cdpConnect u s ∈ (processItem cfg w).1 →
      s = effSlowMo cfg.browserOptions) ∧
    (cfg.browserOptions.headless = some false →
      effHeadless cfg.browserOptions = false) ∧
    (cfg.browserOptions.headless ≠ some false →
      effHeadless cfg.browserOptions = true) ∧
    effSlowMo cfg.browserOptions = cfg.browserOptions.slowMo.getD 0 := by
  refine ⟨?_, ?_, ?_, ?_, ?_⟩
  · intro h s p hmem
    rcases processItem_trace_split cfg w with ht | ⟨creds, hgc, ht⟩ | ⟨creds, hgc, ht⟩ <;>
      rw [ht] at hmem <;> simp at hmem
    · exact acquire_launch_args cfg creds w h s p hmem
    · rcases hmem with hmem | hmem
      · exact acquire_launch_args cfg creds w h s p hmem
      · exact absurd hmem (afterAcquire_no_launch cfg w h s p)
  · intro u s hmem
    rcases processItem_trace_split cfg w with ht | ⟨creds, hgc, ht⟩ | ⟨creds, hgc, ht⟩ <;>
      rw [ht] at hmem <;> simp at hmem
    · exact acquire_cdp_args cfg creds w u s hmem
    · rcases hmem with hmem | hmem
      · exact acquire_cdp_args cfg creds w u s hmem
      · exact absurd hmem (afterAcquire_no_cdp cfg w u s)
  · intro hh
    unfold effHeadless
    rw [hh]
  · intro hh
    unfold effHeadless
    rcases hb : cfg.browserOptions.headless with _ | b
    · rfl
    · cases b
      · exact absurd hb hh
      · rfl
  · unfold effSlowMo
    cases hs : cfg.browserOptions.slowMo <;> rfl

/-- Witness for C7 at a concrete launch: headless defaults to true,
slowMo to 0. -/
theorem C7_witness :
    Event.launchEv true 0 "/usr/bin/cb" ∈ (processItem navCfg allOkWorld).1 ∧
    (true = effHeadless navCfg.browserOptions ∧ 0 = effSlowMo navCfg.browserOptions) :=
  ⟨by decide,
    (C7_launch_and_connect_options navCfg allOkWorld).1 true 0 "/usr/bin/cb" (by decide)⟩

/-- Unfolding of the loop at a cons cell. -/
lemma execute_cons (cof : Bool) (os : String) (it : RunItem) (rest : List RunItem) :
    execute cof os (it :: rest) =
      match processItem it.cfg it.world with
      | (tr, .ok out) =>
        match execute cof os rest with
        | (trs, .ok outs) => (tr :: trs, .ok (out ++ outs))
        | (trs, .error e) => (tr :: trs, .error e)
      | (tr, .error e) =>
        if cof then
          match execute cof os rest with
          | (trs, .ok outs) =>
            (tr :: trs, .ok (NodeItem.errorRecord e it.cfg.browserType os :: outs))
          | (trs, .error e2) => (tr :: trs, .error e2)
        else ([tr], .error e) := rfl

/-- Claim C8: on every successful item the trace ends with the single close
call, preceded by exactly one browser acquisition, one context open and one
page open; and the loop records the item's complete trace — close included —
before any event of the next item, and appends the item's output only then. -/
theorem C8_close_then_emit (cfg : ItemCfg) (w : ItemWorld) (out : List NodeItem)
    (h : (processItem cfg w).2 = .ok out) :
    (∃ t, (processItem cfg w).1 = t ++ [Event.close] ∧ Event.close ∉ t ∧
      t.countP isBrowserAcquire = 1 ∧
      t.count Event.ctxOpen = 1 ∧ t.count Event.pageOpen = 1) ∧
    ∀ cof os rest, execute cof os (⟨cfg, w⟩ :: rest) =
      ((processItem cfg w).1 :: (execute cof os rest).1,
        match (execute cof os rest).2 with
        | .ok outs => .ok (out ++ outs)
        | .error e => .error e) := by
  constructor
  · rcases processItem_ok_trace cfg w out h with ⟨creds, hgc, hok, ht | ht⟩
    · refine ⟨Event.credsCall :: ((acquire cfg creds w).1 ++
        [Event.ctxOpen, Event.pageOpen, Event.script]), ?_, ?_, ?_, ?_, ?_⟩
      · rw [ht]
        simp
      · intro hmem
        simp at hmem
        have := acquire_all_acquireEv cfg creds w _ hmem
        simp [isAcquireEv] at this
      · rcases acquire_ok_trace cfg creds w hok with ha | ⟨p, ha⟩ <;> rw [ha] <;>
          simp [List.countP_cons, List.countP_append, isBrowserAcquire,
            resolveExec_no_browserAcquire]
      · have hza : (acquire cfg creds w).1.count Event.ctxOpen = 0 := by
          rw [List.count_eq_zero]
          intro hmem
          have := acquire_all_acquireEv cfg creds w _ hmem
          simp [isAcquireEv] at this
        simp [List.count_cons, List.count_append, hza]
      · have hza : (acquire cfg creds w).1.count Event.pageOpen = 0 := by
          rw [List.count_eq_zero]
          intro hmem
          have := acquire_all_acquireEv cfg creds w _ hmem
          simp [isAcquireEv] at this
        simp [List.count_cons, List.count_append, hza]
    · refine ⟨Event.credsCall :: ((acquire cfg creds w).1 ++
        [Event.ctxOpen, Event.pageOpen, Event.gotoUrl cfg.url,
          Event.dispatch cfg.operation]), ?_, ?_, ?_, ?_, ?_⟩
      · rw [ht]
        simp
      · intro hmem
        simp at hmem
        have := acquire_all_acquireEv cfg creds w _ hmem
        simp [isAcquireEv] at this
      · rcases acquire_ok_trace cfg creds w hok with ha | ⟨p, ha⟩ <;> rw [ha] <;>
          simp [List.countP_cons, List.countP_append, isBrowserAcquire,
            resolveExec_no_browserAcquire]
      · have hza : (acquire cfg creds w).1.count Event.ctxOpen = 0 := by
          rw [List.count_eq_zero]
          intro hmem
          have := acquire_all_acquireEv cfg creds w _ hmem
          simp [isAcquireEv] at this
        simp [List.count_cons, List.count_append, hza]
      · have hza : (acquire cfg creds w).1.count Event.pageOpen = 0 := by
          rw [List.count_eq_zero]
          intro hmem
          have := acquire_all_acquireEv cfg creds w _ hmem
          simp [isAcquireEv] at this
        simp [List.count_cons, List.count_append, hza]
  · intro cof os rest
    rcases hp : processItem cfg w with ⟨tr, r⟩
    rw [hp] at h
    simp at h
    subst h
    rw [execute_cons]
    rcases hrest : execute cof os rest with ⟨trs, rr⟩
    cases rr <;> simp [hp, hrest]

/-- Witness for C8 at a concrete successful navigate item. -/
theorem C8_witness :
    (processItem navCfg allOkWorld).2 = .ok [NodeItem.data 7] ∧
    ∃ t, (processItem navCfg allOkWorld).1 = t ++ [Event.close] ∧
      Event.close ∉ t ∧ t.countP isBrowserAcquire = 1 ∧
      t.count Event.ctxOpen = 1 ∧ t.count Event.pageOpen = 1 :=
  ⟨rfl, (C8_close_then_emit navCfg allOkWorld [NodeItem.data 7] rfl).1⟩

lemma acquire_launch_mem (cfg : ItemCfg) (creds : Credentials) (w : ItemWorld)
    (hconn : creds.connectionType ≠ "connect") (ev : Event)
    (hev : ev ∈ (acquire cfg creds w).1) :
    ev = Event.locate cfg.browserType ∨ ev = Event.installEv cfg.browserType ∨
    ∃ h s p, ev = Event.launchEv h s p := by
  unfold acquire at hev
  rw [if_neg hconn] at hev
  rcases hres : resolveExec cfg.browserType creds.executablePath w with ⟨rtr, rr⟩
  rw [hres] at hev
  cases rr with
  | error e =>
    simp at hev
    rcases resolveExec_mem_cases cfg.browserType creds.executablePath w ev
      (by rw [hres]; exact hev) with h2 | h2 <;> tauto
  | ok p =>
    rcases hlw : w.launch with e | ⟨⟩ <;> rw [hlw] at hev <;> simp at hev <;>
      (rcases hev with hev | hev
       · rcases resolveExec_mem_cases cfg.browserType creds.executablePath w ev
           (by rw [hres]; exact hev) with h2 | h2 <;> tauto
       · exact Or.inr (Or.inr ⟨_, _, _, hev⟩))

/-- `creds` with connection type "launch" and the given endpoint URL. -/
def setLaunch (creds : Credentials) (u2 : String) : Credentials :=
  { creds with connectionType := "launch", endpointUrl := u2 }

/-- `w` answering the credentials fetch with `c`. -/
def setCreds (w : ItemWorld) (c : Credentials) : ItemWorld :=
  { w with getCredentials := Except.ok c }

/-- Claim C9: any connectionType other than the exact string "connect" is
treated as launch mode — processing is identical to `connectionType =
"launch"`, `connectOverCDP` is never invoked, and the `endpointUrl`
credential is never read: the outcome does not depend on it. -/
theorem C9_nonconnect_is_launch (cfg : ItemCfg) (w : ItemWorld) (creds : Credentials)
    (hc : w.getCredentials = .ok creds)
    (hconn : creds.connectionType ≠ "connect") :
    (∀ u s, Event.cdpConnect u s ∉ (processItem cfg w).1) ∧
    ∀ u2, processItem cfg w = processItem cfg (setCreds w (setLaunch creds u2)) := by
  constructor
  · intro u s hmem
    rcases processItem_trace_split cfg w with ht | ⟨creds2, hgc2, ht⟩ | ⟨creds2, hgc2, ht⟩ <;>
      rw [ht] at hmem <;> simp at hmem
    · have hsame : creds2 = creds := by
        rw [hc] at hgc2
        simpa using hgc2.symm
      subst hsame
      rcases acquire_launch_mem cfg creds2 w hconn _ hmem with he | he | ⟨a, b, c, he⟩ <;>
        simp at he
    · rcases hmem with hmem | hmem
      · have hsame : creds2 = creds := by
          rw [hc] at hgc2
          simpa using hgc2.symm
        subst hsame
        rcases acquire_launch_mem cfg creds2 w hconn _ hmem with he | he | ⟨a, b, c, he⟩ <;>
          simp at he
      · exact absurd hmem (afterAcquire_no_cdp cfg w u s)
  · intro u2
    have hacq_eq : acquire cfg (setLaunch creds u2) (setCreds w (setLaunch creds u2)) =
        acquire cfg creds w := by
      unfold acquire setLaunch setCreds
      rw [if_neg hconn, if_neg (show ¬("launch" = "connect") by decide)]
      rfl
    rw [processItem_eq cfg w creds hc,
      processItem_eq cfg (setCreds w (setLaunch creds u2)) (setLaunch creds u2) rfl,
      hacq_eq]
    rfl

/-- Witness for C9 at a concrete item: "launch"-mode processing ignores the
endpoint URL credential. -/
theorem C9_witness :
    launchCreds.connectionType ≠ "connect" ∧
    processItem navCfg allOkWorld =
      processItem navCfg (setCreds allOkWorld (setLaunch launchCreds "ws://other")) :=
  ⟨by decide,
    (C9_nonconnect_is_launch navCfg allOkWorld launchCreds rfl (by decide)).2 "ws://other"⟩

/-- The close call appears in the post-acquisition trace only when context
opening, page opening and the operation (navigation plus dispatch, or the
script) all succeeded. -/
lemma afterAcquire_close_mem (cfg : ItemCfg) (w : ItemWorld)
    (h : Event.close ∈ (afterAcquire cfg w).1) :
    w.newContext = .ok () ∧ w.newPage = .ok () ∧
    (cfg.operation = "runCustomScript" → ∃ l, w.runScript = .ok l) ∧
    (cfg.operation ≠ "runCustomScript" →
      w.goPage = .ok () ∧ ∃ r, w.handleOperation = .ok r) := by
  unfold afterAcquire at h
  rcases hnc : w.newContext with e | ⟨⟩
  · rw [hnc] at h
    simp at h
  rw [hnc] at h
  rcases hnp : w.newPage with e | ⟨⟩
  · rw [hnp] at h
    simp at h
  rw [hnp] at h
  by_cases hop : cfg.operation = "runCustomScript"
  · rw [if_pos hop] at h
    rcases hrs : w.runScript with e | l
    · rw [hrs] at h
      simp at h
    · exact ⟨rfl, rfl, fun _ => ⟨l, rfl⟩, fun hno => absurd hop hno⟩
  · rw [if_neg hop] at h
    rcases hgo : w.goPage with e | ⟨⟩
    · rw [hgo] at h
      simp at h
    rw [hgo] at h
    rcases hho : w.handleOperation with e | r
    · rw [hho] at h
      simp at h
    · exact ⟨rfl, rfl, fun hyes => absurd hyes hop, fun _ => ⟨rfl, r, rfl⟩⟩

/-- Claim C10: `browser.close` is invoked only on the success path, after the
operation (or script) completed: whenever an error is raised during context
or page opening, navigation, dispatch or script execution, the close call is
absent from the item's trace and the error record / rethrow happens without
it. -/
theorem C10_close_only_after_success (cfg : ItemCfg) (w : ItemWorld)
    (h : Event.close ∈ (processItem cfg w).1) :
    w.newContext = .ok () ∧ w.newPage = .ok () ∧
    (cfg.operation = "runCustomScript" → ∃ l, w.runScript = .ok l) ∧
    (cfg.operation ≠ "runCustomScript" →
      w.goPage = .ok () ∧ ∃ r, w.handleOperation = .ok r) := by
  rcases processItem_trace_split cfg w with ht | ⟨creds, hgc, ht⟩ | ⟨creds, hgc, ht⟩ <;>
    rw [ht] at h <;> simp at h
  · have := acquire_all_acquireEv cfg creds w _ h
    simp [isAcquireEv] at this
  · rcases h with h | h
    · have := acquire_all_acquireEv cfg creds w _ h
      simp [isAcquireEv] at this
    · exact afterAcquire_close_mem cfg w h

/-- Witness for C10 at a concrete item whose trace contains the close
call. -/
theorem C10_witness :
    Event.close ∈ (processItem navCfg allOkWorld).1 ∧
    allOkWorld.newContext = .ok () :=
  ⟨by decide, (C10_close_only_after_success navCfg allOkWorld (by decide)).1⟩
